import Mathlib

/-!
Verification of the k8s-resource-mapper relationship-discovery engine.

This file shallowly embeds the Go implementation (internal/mapper,
internal/visualizer, internal/common, internal/config) in Lean 4 and
proves/refutes the specification's testable properties against it.

Machine integers (int32 replica counts, port numbers) are modelled as `Int`;
Go maps keyed by strings are modelled as association lists or key lists with
first-insertion order; a Go `error` result is modelled as `Option String`
(`none` = nil) or `Except String`.
-/

namespace KRM

/-- Mirror of `types.ResourceType` (a string enum in Go). -/
abbrev ResourceType := String

/-- Mirror of `types.RelationshipType` (a string enum in Go). -/
abbrev RelationshipType := String

def resourceTypePod : ResourceType := "Pod"

def resourceTypeService : ResourceType := "Service"

def resourceTypeIngress : ResourceType := "Ingress"

def resourceTypeConfigMap : ResourceType := "ConfigMap"

def resourceTypeDeployment : ResourceType := "Deployment"

def resourceTypeHPA : ResourceType := "HPA"

def resourceTypeSecret : ResourceType := "Secret"

def relationshipTypeOwns : RelationshipType := "owns"

def relationshipTypeUses : RelationshipType := "uses"

def relationshipTypeExposes : RelationshipType := "exposes"

def relationshipTypeTargets : RelationshipType := "targets"

/-- Mirror of `corev1.ServicePort` as used by `formatPorts`: the declared
port, the `TargetPort.IntVal` the code prints, and the protocol string. -/
structure ServicePort where
  port : Int
  targetPort : Int
  protocol : String
  nodePort : Int
deriving DecidableEq, Repr

/-- One entry of a load-balancer ingress status list
(`Status.LoadBalancer.Ingress`): an IP and/or a hostname. -/
structure GoLBIngress where
  ip : String
  hostname : String
deriving DecidableEq, Repr

/-- Mirror of `corev1.Service` restricted to the fields the mapper reads:
name, namespace, labels, `Spec.Selector` (a nilable Go map, hence
`Option`), `Spec.Ports` and `Spec.Type`. -/
structure GoService where
  name : String
  ns : String
  labels : List (String × String)
  selector : Option (List (String × String))
  ports : List ServicePort
  specType : String
  clusterIP : String
  lbIngress : List GoLBIngress
deriving DecidableEq, Repr

/-- Mirror of `corev1.Pod` restricted to the fields the mapper reads. -/
structure GoPod where
  name : String
  ns : String
  labels : List (String × String)
  phase : String
  conditions : List (String × String)
deriving DecidableEq, Repr

/-- Mirror of `corev1.Volume` restricted to the ConfigMap volume source:
`volume.ConfigMap` is a nilable pointer, carried here as the optional
referenced ConfigMap name. -/
structure GoVolume where
  configMapName : Option String
deriving DecidableEq, Repr

/-- Mirror of `corev1.EnvFromSource`: `envFrom.ConfigMapRef` is nilable,
carried as the optional referenced ConfigMap name. -/
structure GoEnvFromSource where
  configMapRefName : Option String
deriving DecidableEq, Repr

/-- Mirror of `corev1.EnvVar`: `env.ValueFrom.ConfigMapKeyRef` is reached
through two nilable pointers, flattened here to the optional referenced
ConfigMap name (`none` when either pointer is nil). -/
structure GoEnvVar where
  configMapKeyRefName : Option String
deriving DecidableEq, Repr

/-- Mirror of `corev1.Container` restricted to `EnvFrom` and `Env`. -/
structure GoContainer where
  envFrom : List GoEnvFromSource
  env : List GoEnvVar
deriving DecidableEq, Repr

/-- Mirror of `corev1.PodTemplateSpec` restricted to volumes and containers. -/
structure GoPodTemplateSpec where
  volumes : List GoVolume
  containers : List GoContainer
deriving DecidableEq, Repr

/-- Mirror of `appsv1.Deployment` restricted to the fields the mapper reads:
`Spec.Template`, `Status.ReadyReplicas` and `*Spec.Replicas`. -/
structure GoDeployment where
  name : String
  ns : String
  labels : List (String × String)
  template : GoPodTemplateSpec
  readyReplicas : Int
  replicas : Int
deriving DecidableEq, Repr

/-- Mirror of `corev1.ConfigMap` restricted to identity, labels and the
key counts `len(Data)` / `len(BinaryData)` read by `getConfigMapStatus`. -/
structure GoConfigMap where
  name : String
  ns : String
  labels : List (String × String)
  dataCount : Nat
  binaryDataCount : Nat
deriving DecidableEq, Repr

/-- Mirror of `networkingv1.IngressServiceBackend`: the referenced service
name and `Port.Number`. -/
structure GoServiceBackend where
  name : String
  portNumber : Int
deriving DecidableEq, Repr

/-- Mirror of `networkingv1.HTTPIngressPath`: the path string and
`path.Backend.Service`, a nilable pointer carried as an `Option`. -/
structure GoIngressPath where
  path : String
  backendService : Option GoServiceBackend
deriving DecidableEq, Repr

/-- Mirror of `networkingv1.IngressRule`: host plus the nilable
`rule.HTTP` block with its path list. -/
structure GoIngressRule where
  host : String
  http : Option (List GoIngressPath)
deriving DecidableEq, Repr

/-- Mirror of `networkingv1.IngressTLS`: `secretName` (may be the empty
string) and the covered hosts. -/
structure GoIngressTLS where
  secretName : String
  hosts : List String
deriving DecidableEq, Repr

/-- Mirror of `networkingv1.Ingress` restricted to the fields the mapper
reads: rules, the nilable default backend (carried as the optional backend
service name) and the TLS entries. -/
structure GoIngress where
  name : String
  ns : String
  labels : List (String × String)
  rules : List GoIngressRule
  defaultBackend : Option GoServiceBackend
  tls : List GoIngressTLS
  lbIngress : List GoLBIngress
deriving DecidableEq, Repr

/-- Mirror of `corev1.Secret` restricted to identity and labels. -/
structure GoSecret where
  name : String
  ns : String
  labels : List (String × String)
deriving DecidableEq, Repr

/-- The `Data interface{}` payload of `types.Resource`: a tagged variant of
the raw discovered object, inspected by the renderer via Go type
assertions. `raw` stands for payloads the renderer never matches. -/
inductive Payload where
  | svc (s : GoService)
  | pod (p : GoPod)
  | deploy (d : GoDeployment)
  | ing (i : GoIngress)
  | cm (c : GoConfigMap)
  | secret (s : GoSecret)
  | raw (s : String)
deriving DecidableEq, Repr

/-- Mirror of `types.ResourceStatus`. -/
structure ResourceStatus where
  phase : String
  ready : Bool
  details : String
deriving DecidableEq, Repr

/-- Mirror of `types.Resource` (Type, Name, Namespace, Labels, Data). The
status summary is carried for processors that set it. -/
structure Resource where
  type : ResourceType
  name : String
  ns : String
  labels : List (String × String)
  data : Payload
  status : ResourceStatus
deriving DecidableEq, Repr

/-- Mirror of `types.Relationship`. -/
structure Relationship where
  source : Resource
  target : Resource
  type : RelationshipType
  description : String
deriving DecidableEq, Repr

/-- Mirror of `types.ResourceMapping`. -/
structure ResourceMapping where
  resources : List Resource
  relationships : List Relationship
deriving DecidableEq, Repr

/-! ## Replica status (deployment-processor.go `getDeploymentStatus`,
visualizer.go `getDeploymentStatusSymbol`) -/

/-- Mirror of `DeploymentProcessor.getDeploymentStatus`
(deployment-processor.go:130-151): compares `Status.ReadyReplicas` with
`*Spec.Replicas` and formats `"<ready>/<desired> replicas ready"`. -/
def getDeploymentStatus (readyReplicas replicas : Int) : ResourceStatus :=
  let details := toString readyReplicas ++ "/" ++ toString replicas ++ " replicas ready"
  if readyReplicas = replicas then
    { phase := "Ready", ready := true, details := details }
  else if readyReplicas > 0 then
    { phase := "PartiallyReady", ready := false, details := details }
  else
    { phase := "NotReady", ready := false, details := details }

/-! ## Port formatting (service-processor.go `formatPorts`,
visualizer.go `Visualizer.formatPorts`) -/

/-- The formatted entry for one port: `"<port>→<targetPort>/<protocol>"`,
exactly the verb `fmt.Sprintf("%d→%d/%s", port.Port, port.TargetPort.IntVal,
port.Protocol)`. -/
def portEntry (p : ServicePort) : String :=
  toString p.port ++ "→" ++ toString p.targetPort ++ "/" ++ p.protocol

/-- Mirror of `formatPorts` (service-processor.go:297-304, identical logic in
visualizer.go:306-313): builds the entry slice with an append loop over the
declared ports, then `strings.Join(..., ", ")`. -/
def formatPorts (ports : List ServicePort) : String :=
  String.intercalate ", " (ports.foldl (fun acc p => acc ++ [portEntry p]) [])

theorem formatPorts_foldl_eq_map (init : List String) (ports : List ServicePort) :
    ports.foldl (fun acc p => acc ++ [portEntry p]) init = init ++ ports.map portEntry := by
  induction ports generalizing init with
  | nil => simp
  | cons p ps ih => simp [List.foldl_cons, ih]

/-- C7 counterexample: at `ReadyReplicas = 1`, `*Spec.Replicas = 0` the claim
says the deployment is fully ready (`desired == 0`), but the code classifies
it as `PartiallyReady` with `Ready = false`. -/
theorem getDeploymentStatus_desired_zero_not_fully_ready :
    (getDeploymentStatus 1 0).phase = "PartiallyReady" ∧
    (getDeploymentStatus 1 0).ready = false ∧
    ¬ (getDeploymentStatus 1 0).phase = "Ready" := by
  refine ⟨by decide, by decide, by decide⟩

/-- C7 (amended): the replica status always renders as
`"<ready>/<desired> replicas ready"`; the deployment is fully ready exactly
when `ready == desired` (the only `desired == 0` case counted as fully ready
is `ready == 0`); it is partially ready exactly when `ready ≠ desired` and
`ready > 0`; it is not ready exactly when `ready ≠ desired` and `ready ≤ 0`. -/
theorem getDeploymentStatus_classification (r d : Int) :
    (getDeploymentStatus r d).details = toString r ++ "/" ++ toString d ++ " replicas ready" ∧
    ((getDeploymentStatus r d).ready = true ↔ r = d) ∧
    ((getDeploymentStatus r d).phase = "Ready" ↔ r = d) ∧
    ((getDeploymentStatus r d).phase = "PartiallyReady" ↔ r ≠ d ∧ r > 0) ∧
    ((getDeploymentStatus r d).phase = "NotReady" ↔ r ≠ d ∧ r ≤ 0) := by
  unfold getDeploymentStatus
  by_cases h : r = d
  · subst h
    simp
  · by_cases hpos : r > 0
    · simp [h, hpos] <;> omega
    · simp [h, hpos] <;> omega

/-- C8: `formatPorts` renders one `"<port>→<targetPort>/<protocol>"` entry
per declared port — declared port, then the target port value, then the
protocol, in that order — comma-joined in the declared port order. -/
theorem formatPorts_spec (ports : List ServicePort) :
    formatPorts ports =
      String.intercalate ", "
        (ports.map fun p => toString p.port ++ "→" ++ toString p.targetPort ++ "/" ++ p.protocol) := by
  unfold formatPorts
  rw [formatPorts_foldl_eq_map]
  rfl

/-! ## Resource identity (common-types.go `ResourceKey` / `ResourceSet`,
common-processing.go `ProcessResources`) -/

/-- Mirror of `common.ResourceKey`:
`fmt.Sprintf("%s/%s/%s", resource.Type, resource.Namespace, resource.Name)`. -/
def ResourceKey (r : Resource) : String :=
  r.type ++ "/" ++ r.ns ++ "/" ++ r.name

/-- The per-processor collection loop of `common.ProcessResources`
(common-processing.go:125-130): each discovered resource is checked against
the shared `ResourceSet` — a Go map keyed by `ResourceKey`, modelled as the
key list in insertion order — and appended to `result.Resources` only when
its key is new. -/
def collectLoop : List String × List Resource → List Resource → List String × List Resource
  | acc, [] => acc
  | (set, res), r :: rs =>
    if set.contains (ResourceKey r) then collectLoop (set, res) rs
    else collectLoop (set ++ [ResourceKey r], res ++ [r]) rs

/-- Aggregation of `common.ProcessResources` across its processors: the
scheduler interleaves the queue tasks arbitrarily; we serialize the
per-processor collection blocks in list order (the claimed property is
order-independent). -/
def processResourcesCollect (procs : List (List Resource)) : List Resource :=
  (procs.foldl collectLoop ([], [])).2

theorem collectLoop_append (xs ys : List Resource) :
    ∀ acc : List String × List Resource,
      collectLoop acc (xs ++ ys) = collectLoop (collectLoop acc xs) ys := by
  induction xs with
  | nil => intro acc; rfl
  | cons r rs ih =>
    intro acc
    obtain ⟨s, l⟩ := acc
    by_cases h : s.contains (ResourceKey r)
    · simp only [List.cons_append, collectLoop, h, if_pos]
      exact ih _
    · simp only [List.cons_append, collectLoop, h, if_neg, Bool.false_eq_true,
        not_false_iff]
      exact ih _

theorem foldl_collectLoop_eq_join (procs : List (List Resource)) :
    ∀ acc, procs.foldl collectLoop acc = collectLoop acc procs.flatten := by
  induction procs with
  | nil => intro acc; rfl
  | cons p ps ih =>
    intro acc
    rw [List.foldl_cons, List.flatten_cons, collectLoop_append]
    exact ih _

theorem collectLoop_inv (rs : List Resource) :
    ∀ set res, set = res.map ResourceKey → set.Nodup →
      (collectLoop (set, res) rs).1 = (collectLoop (set, res) rs).2.map ResourceKey ∧
      (collectLoop (set, res) rs).1.Nodup ∧
      (∀ k, k ∈ (collectLoop (set, res) rs).1 ↔ k ∈ set ∨ k ∈ rs.map ResourceKey) := by
  induction rs with
  | nil =>
    intro set res h hnd
    refine ⟨h ▸ rfl, hnd, fun k => by simp [collectLoop]⟩
  | cons r rs ih =>
    intro set res h hnd
    by_cases hc : set.contains (ResourceKey r)
    · have hmem : ResourceKey r ∈ set := by simpa using hc
      have := ih set res h hnd
      simp only [collectLoop, hc, if_pos]
      refine ⟨this.1, this.2.1, fun k => ?_⟩
      rw [this.2.2 k]
      simp only [List.map_cons, List.mem_cons]
      constructor
      · rintro (hk | hk)
        · exact Or.inl hk
        · exact Or.inr (Or.inr hk)
      · rintro (hk | hk | hk)
        · exact Or.inl hk
        · exact Or.inl (hk ▸ hmem)
        · exact Or.inr hk
    · have hmem : ResourceKey r ∉ set := by simpa using hc
      have hset' : set ++ [ResourceKey r] = (res ++ [r]).map ResourceKey := by
        simp [h]
      have hnd' : (set ++ [ResourceKey r]).Nodup := by
        simp [List.nodup_append, hnd, hmem]
      have := ih (set ++ [ResourceKey r]) (res ++ [r]) hset' hnd'
      simp only [collectLoop, hc, if_neg, Bool.false_eq_true, not_false_iff]
      refine ⟨this.1, this.2.1, fun k => ?_⟩
      rw [this.2.2 k]
      simp only [List.mem_append, List.mem_singleton, List.map_cons, List.mem_cons]
      tauto

/-- C5: resource insertion is idempotent on the `(kind, namespace, name)`
identity triple — two resources with the same triple inserted through two
(possibly different) processors, with arbitrary payloads, produce exactly
one entry with that key in the collected resource set. -/
theorem resource_identity_idempotent (procs : List (List Resource))
    (r1 r2 : Resource) (p1 p2 : List Resource)
    (hp1 : p1 ∈ procs) (hp2 : p2 ∈ procs) (hr1 : r1 ∈ p1) (hr2 : r2 ∈ p2)
    (ht : r2.type = r1.type) (hns : r2.ns = r1.ns) (hn : r2.name = r1.name) :
    (processResourcesCollect procs).countP
      (fun r => ResourceKey r == ResourceKey r1) = 1 := by
  unfold processResourcesCollect
  rw [foldl_collectLoop_eq_join]
  obtain ⟨hkeys, hnd, hmem⟩ := collectLoop_inv procs.flatten [] [] (by simp) (by simp)
  have hjoin : r1 ∈ procs.flatten := List.mem_flatten.mpr ⟨p1, hp1, hr1⟩
  have hkey : ResourceKey r1 ∈ (collectLoop ([], []) procs.flatten).1 := by
    rw [hmem]
    exact Or.inr (List.mem_map_of_mem ResourceKey hjoin)
  rw [hkeys] at hkey hnd
  have hcount := List.count_eq_one_of_mem hnd hkey
  simpa [List.count, List.countP_map, Function.comp] using hcount

/-! ## Renderer relationship lookup (visualizer.go) -/

/-- Mirror of the `Visualizer` struct: the frozen resource mapping plus the
two display switches, and the process-global `utils.DisableColors` flag
threaded explicitly (it is constant within one render). -/
structure Visualizer where
  resourceMapping : ResourceMapping
  showDetails : Bool
  colorOutput : Bool
  disableColors : Bool
deriving DecidableEq, Repr

/-- Mirror of `Visualizer.findRelationships` (visualizer.go:326-334): keeps
the relationships whose source matches the given resource's `Name` and
`Type` (the namespace is not compared) and whose kind matches. -/
def findRelationships (v : Visualizer) (source : Resource)
    (relType : RelationshipType) : List Relationship :=
  v.resourceMapping.relationships.filter fun r =>
    r.source.name == source.name && r.source.type == source.type && r.type == relType

/-- Mirror of `Visualizer.findRelationshipsForTarget` (visualizer.go:336-344):
same lookup keyed on the target's `Name` and `Type`. -/
def findRelationshipsForTarget (v : Visualizer) (target : Resource)
    (relType : RelationshipType) : List Relationship :=
  v.resourceMapping.relationships.filter fun r =>
    r.target.name == target.name && r.target.type == target.type && r.type == relType

/-- C10: the renderer resolves relationships by the source's `(name, type)`
only — two resources with equal name and type but different namespaces get
the identical relationship list, and membership in the lookup result does
not constrain the source's namespace. -/
theorem findRelationships_ignores_namespace (v : Visualizer) (a b : Resource)
    (relType : RelationshipType) (hn : a.name = b.name) (ht : a.type = b.type) :
    findRelationships v a relType = findRelationships v b relType ∧
    (∀ r, r ∈ findRelationships v a relType ↔
      r ∈ v.resourceMapping.relationships ∧
        r.source.name = a.name ∧ r.source.type = a.type ∧ r.type = relType) := by
  constructor
  · unfold findRelationships
    rw [hn, ht]
  · intro r
    unfold findRelationships
    simp [List.mem_filter, and_assoc]

/-- Concrete instantiation of `findRelationships_ignores_namespace`: two
Service resources named `web` in namespaces `ns1` and `ns2`. -/
theorem findRelationships_ignores_namespace_witness :
    (findRelationships
        { resourceMapping := { resources := [], relationships := [] },
          showDetails := true, colorOutput := true, disableColors := false }
        { type := "Service", name := "web", ns := "ns1", labels := [],
          data := .raw "", status := { phase := "", ready := false, details := "" } }
        "targets" =
      findRelationships
        { resourceMapping := { resources := [], relationships := [] },
          showDetails := true, colorOutput := true, disableColors := false }
        { type := "Service", name := "web", ns := "ns2", labels := [],
          data := .raw "", status := { phase := "", ready := false, details := "" } }
        "targets") ∧
    (∀ r, r ∈ findRelationships
        { resourceMapping := { resources := [], relationships := [] },
          showDetails := true, colorOutput := true, disableColors := false }
        { type := "Service", name := "web", ns := "ns1", labels := [],
          data := .raw "", status := { phase := "", ready := false, details := "" } }
        "targets" ↔
      r ∈ ([] : List Relationship) ∧
        r.source.name = "web" ∧ r.source.type = "Service" ∧ r.type = "targets") :=
  findRelationships_ignores_namespace _ _ _ _ rfl rfl

/-! ## Service → Pod targeting (service-processor.go `processPods`) -/

/-- Mirror of `isPodReady` (deployment-processor.go:317-324): the first
condition whose type is `Ready` decides; no such condition means not
ready. -/
def isPodReady (p : GoPod) : Bool :=
  match p.conditions.find? (fun c => c.1 == "Ready") with
  | some c => c.2 == "True"
  | none => false

/-- Mirror of `getLoadBalancerAddress` (service-processor.go:274-285). -/
def getLoadBalancerAddress (svc : GoService) : String :=
  match svc.lbIngress with
  | ing :: _ =>
    if ing.ip ≠ "" then ing.ip
    else if ing.hostname ≠ "" then ing.hostname
    else "pending"
  | [] => "pending"

/-- Mirror of `getNodePorts` (service-processor.go:287-295). -/
def getNodePorts (svc : GoService) : String :=
  String.intercalate ", "
    (svc.ports.foldl
      (fun acc p => if p.nodePort > 0 then acc ++ [toString p.nodePort] else acc) [])

/-- Mirror of `ServiceProcessor.getServiceStatus` (service-processor.go:131-155). -/
def getServiceStatus (svc : GoService) : ResourceStatus :=
  match svc.specType with
  | "LoadBalancer" =>
    if svc.lbIngress.length > 0 then
      { phase := "Active", ready := true,
        details := "LoadBalancer: " ++ getLoadBalancerAddress svc }
    else
      { phase := "Pending", ready := false, details := "Waiting for LoadBalancer" }
  | "NodePort" =>
    { phase := "Active", ready := true, details := "NodePorts: " ++ getNodePorts svc }
  | "ClusterIP" =>
    { phase := "Active", ready := true, details := "ClusterIP: " ++ svc.clusterIP }
  | _ => { phase := "Active", ready := true, details := "" }

/-- The service `types.Resource` built by `ServiceProcessor.processService`
(service-processor.go:74-82). -/
def serviceResource (svc : GoService) : Resource :=
  { type := resourceTypeService, name := svc.name, ns := svc.ns,
    labels := svc.labels, data := .svc svc, status := getServiceStatus svc }

/-- The pod `types.Resource` built inside `ServiceProcessor.processPods`
(service-processor.go:181-192). -/
def podResourceSvc (p : GoPod) : Resource :=
  { type := resourceTypePod, name := p.name, ns := p.ns, labels := p.labels,
    data := .pod p,
    status := { phase := p.phase, ready := isPodReady p, details := "" } }

/-- The label-selector match contract of the provider's
`Pods(ns).List(LabelSelector: ...)` call: a pod matches when every
key/value pair of the service's `MatchLabels` map is present with the same
value among the pod's labels. -/
def labelsMatch (sel : List (String × String)) (labels : List (String × String)) : Bool :=
  sel.all fun kv => labels.lookup kv.1 == some kv.2

/-- Mirror of `ServiceProcessor.processPods` (service-processor.go:165-204).
`pods` is the cluster's pod population; the provider's namespace-scoped,
label-filtered `List` returns those in the service's namespace whose labels
are a superset of the selector map. A nil selector returns immediately. An
empty-but-non-nil selector map is formatted by `metav1.FormatLabelSelector`
as the literal `"<none>"`, which the provider rejects as an unparsable
label selector, so the pod list fails and no relationship is appended. -/
def serviceProcessPods (svc : GoService) (pods : List GoPod) : List Relationship :=
  match svc.selector with
  | none => []
  | some sel =>
    if sel.isEmpty then []
    else
      (pods.filter fun p => p.ns == svc.ns && labelsMatch sel p.labels).map fun p =>
        { source := serviceResource svc, target := podResourceSvc p,
          type := relationshipTypeTargets,
          description := "routes traffic to pod: " ++ formatPorts svc.ports }

/-- C3: a `Targets` edge from service S to pod P exists iff P is a pod of
S's namespace whose labels are a superset of S's selector map and the
selector is non-empty; a nil or empty selector yields zero `Targets`
edges. -/
theorem service_targets_pods_iff (svc : GoService) (pods : List GoPod) (p : GoPod) :
    ((∃ rel ∈ serviceProcessPods svc pods,
        rel.source = serviceResource svc ∧ rel.target = podResourceSvc p ∧
        rel.type = relationshipTypeTargets) ↔
      (p ∈ pods ∧ p.ns = svc.ns ∧
        ∃ sel, svc.selector = some sel ∧ sel ≠ [] ∧ labelsMatch sel p.labels = true)) ∧
    ((svc.selector = none ∨ svc.selector = some []) → serviceProcessPods svc pods = []) := by
  constructor
  · unfold serviceProcessPods
    cases hsel : svc.selector with
    | none => simp
    | some sel =>
      by_cases hE : sel.isEmpty
      · simp only [hE, if_pos]
        have : sel = [] := List.isEmpty_iff.mp hE
        subst this
        simp
      · simp only [hE, if_neg, Bool.false_eq_true, not_false_iff]
        have hne : sel ≠ [] := fun h => hE (by simp [h])
        constructor
        · rintro ⟨rel, hrel, _, htgt, _⟩
          obtain ⟨q, hq, hq2⟩ := List.mem_map.mp hrel
          have hqp : q = p := by
            have := congrArg Resource.data (hq2 ▸ htgt)
            simpa [podResourceSvc] using this
          subst hqp
          obtain ⟨hqmem, hcond⟩ := List.mem_filter.mp hq
          simp only [Bool.and_eq_true, beq_iff_eq] at hcond
          exact ⟨hqmem, hcond.1, sel, rfl, hne, hcond.2⟩
        · rintro ⟨hmem, hns, sel', hsel', hne', hmatch⟩
          have : sel' = sel := by
            injection hsel' with h
            exact h.symm
          subst this
          refine ⟨_, List.mem_map.mpr ⟨p, List.mem_filter.mpr ⟨hmem, ?_⟩, rfl⟩, rfl, rfl, rfl⟩
          simp [hns, hmatch]
  · intro h
    unfold serviceProcessPods
    rcases h with h | h <;> simp [h]

/-! ## Ingress TLS secrets (deployment-processor.go
`IngressProcessor.processTLSSecrets`) -/

/-- Mirror of `IngressProcessor.getIngressStatus`
(deployment-processor.go:443-471). -/
def getIngressStatus (ing : GoIngress) : ResourceStatus :=
  let details := if ing.tls.length > 0 then "TLS Enabled" else ""
  let details :=
    if ing.lbIngress.length > 0 then
      let addresses := ing.lbIngress.foldl
        (fun acc a =>
          let acc := if a.ip ≠ "" then acc ++ [a.ip] else acc
          if a.hostname ≠ "" then acc ++ [a.hostname] else acc) []
      if addresses.length > 0 then
        details ++ ", LoadBalancer: " ++ String.intercalate ", " addresses
      else details
    else details
  { phase := "Active", ready := true, details := details }

/-- The Ingress `types.Resource` built by `IngressProcessor.processIngress`
(deployment-processor.go:411-420). -/
def ingressResource (ing : GoIngress) : Resource :=
  { type := resourceTypeIngress, name := ing.name, ns := ing.ns,
    labels := ing.labels, data := .ing ing, status := getIngressStatus ing }

/-- The Secret `types.Resource` built inside `processTLSSecrets`
(deployment-processor.go:502-514). -/
def tlsSecretResource (t : GoIngressTLS) (s : GoSecret) : Resource :=
  { type := resourceTypeSecret, name := s.name, ns := s.ns, labels := s.labels,
    data := .secret s,
    status := { phase := "Active", ready := true,
                details := "TLS secret for hosts: " ++ String.intercalate ", " t.hosts } }

/-- Output of `processTLSSecrets`: the sequence of secret names passed to
the provider's `Get`, the resources and relationships appended, and the
returned Go error (`none` = nil). -/
structure TLSOut where
  getCalls : List String
  resources : List Resource
  relations : List Relationship
  err : Option String
deriving DecidableEq, Repr

/-- Loop body of `IngressProcessor.processTLSSecrets`
(deployment-processor.go:491-527): entries with an empty `secretName` are
skipped before any `Get`; a failed `Get` is skipped silently; a found
secret contributes one resource and one `Uses` edge; the function always
returns nil. -/
def processTLSSecretsLoop (ingRes : Resource) (get : String → Option GoSecret) :
    List GoIngressTLS → TLSOut
  | [] => { getCalls := [], resources := [], relations := [], err := none }
  | t :: ts =>
    let rest := processTLSSecretsLoop ingRes get ts
    if t.secretName = "" then rest
    else
      match get t.secretName with
      | none => { rest with getCalls := t.secretName :: rest.getCalls }
      | some s =>
        { getCalls := t.secretName :: rest.getCalls,
          resources := tlsSecretResource t s :: rest.resources,
          relations :=
            { source := ingRes, target := tlsSecretResource t s,
              type := relationshipTypeUses,
              description := "uses for TLS: " ++ String.intercalate ", " t.hosts }
              :: rest.relations,
          err := rest.err }

/-- Mirror of `IngressProcessor.processTLSSecrets` applied to an Ingress:
iterates `ing.Spec.TLS` with the provider's namespace-scoped secret `Get`. -/
def processTLSSecrets (ing : GoIngress) (get : String → Option GoSecret) : TLSOut :=
  processTLSSecretsLoop (ingressResource ing) get ing.tls

theorem processTLSSecretsLoop_spec (ingRes : Resource) (get : String → Option GoSecret)
    (tls : List GoIngressTLS) :
    (processTLSSecretsLoop ingRes get tls).err = none ∧
    (processTLSSecretsLoop ingRes get tls).getCalls =
      (tls.filter fun t => !(t.secretName == "")).map (fun t => t.secretName) ∧
    (processTLSSecretsLoop ingRes get tls).resources =
      (tls.filter fun t => !(t.secretName == "")).filterMap
        (fun t => (get t.secretName).map (tlsSecretResource t)) ∧
    (processTLSSecretsLoop ingRes get tls).relations =
      (tls.filter fun t => !(t.secretName == "")).filterMap
        (fun t => (get t.secretName).map fun s =>
          { source := ingRes, target := tlsSecretResource t s,
            type := relationshipTypeUses,
            description := "uses for TLS: " ++ String.intercalate ", " t.hosts }) := by
  induction tls with
  | nil => exact ⟨rfl, rfl, rfl, rfl⟩
  | cons t ts ih =>
    obtain ⟨ih1, ih2, ih3, ih4⟩ := ih
    by_cases h : t.secretName = ""
    · simp [processTLSSecretsLoop, h, ih1, ih2, ih3, ih4]
    · cases hg : get t.secretName with
      | none => simp [processTLSSecretsLoop, h, hg, ih1, ih2, ih3, ih4]
      | some s => simp [processTLSSecretsLoop, h, hg, ih1, ih2, ih3, ih4]

/-- C9: a `spec.tls` entry with an empty `secretName` triggers no secret
`Get`, adds no resource and no `Uses` edge; an entry whose secret lookup
fails is skipped after its `Get`, contributing nothing; and
`processTLSSecrets` never returns an error. -/
theorem ingress_tls_skips_silently (ing : GoIngress) (get : String → Option GoSecret) :
    (processTLSSecrets ing get).err = none ∧
    (processTLSSecrets ing get).getCalls =
      (ing.tls.filter fun t => !(t.secretName == "")).map (fun t => t.secretName) ∧
    (processTLSSecrets ing get).resources =
      (ing.tls.filter fun t => !(t.secretName == "")).filterMap
        (fun t => (get t.secretName).map (tlsSecretResource t)) ∧
    (processTLSSecrets ing get).relations =
      (ing.tls.filter fun t => !(t.secretName == "")).filterMap
        (fun t => (get t.secretName).map fun s =>
          { source := ingressResource ing, target := tlsSecretResource t s,
            type := relationshipTypeUses,
            description := "uses for TLS: " ++ String.intercalate ", " t.hosts }) :=
  processTLSSecretsLoop_spec (ingressResource ing) get ing.tls

/-! ## Coordinator failure policy (mapper.go `ResourceMapper.Process` /
`processNamespace`) -/

/-- The outcome of one Kind Processor's `Process` inside one namespace:
either its discovered relationships (delivered through `GetRelationships`
and `addRelationships`) or the error it pushed on the error channel. A
`ListFailure` of the processor's primary kind is the `error` case. -/
abbrev ProcResult := Except String (List Relationship)

/-- The relationships contributed by the processors that succeeded. -/
def okContributions (results : List ProcResult) : List Relationship :=
  (results.filterMap fun r =>
    match r with
    | .ok rels => some rels
    | .error _ => none).flatten

/-- The first error drained from the buffered error channel, wrapped as
`fmt.Errorf("processor error: %v", err)` (mapper.go:157-161). -/
def firstProcessorError (results : List ProcResult) : Option String :=
  results.findSome? fun r =>
    match r with
    | .error e => some ("processor error: " ++ e)
    | .ok _ => none

/-- Mirror of `ResourceMapper.processNamespace` (mapper.go:123-164): every
processor that succeeds appends its relationships to the shared mapping
(each goroutine calls `addRelationships` on its own success, before the
error check); after the join, the first collected error — if any — is
returned. The goroutines interleave arbitrarily; their append order is
serialized here in processor order (the claims are order-independent). -/
def processNamespace (mapping : List Relationship) (results : List ProcResult) :
    List Relationship × Option String :=
  results.foldl
    (fun acc r =>
      match r with
      | .ok rels => (acc.1 ++ rels, acc.2)
      | .error e =>
        (acc.1,
          match acc.2 with
          | none => some ("processor error: " ++ e)
          | some w => some w))
    (mapping, none)

/-- Mirror of the namespace loop of `ResourceMapper.Process` (mapper.go:53-59):
a failing namespace yields a printed warning
(`"Error processing namespace %s: %v"`) and the loop continues; it never
returns early. Each namespace is its name plus its processors' outcomes. -/
def processRun (nss : List (String × List ProcResult)) :
    List Relationship × List String :=
  nss.foldl
    (fun acc p =>
      let res := processNamespace acc.1 p.2
      match res.2 with
      | some w => (res.1, acc.2 ++ ["Error processing namespace " ++ p.1 ++ ": " ++ w])
      | none => (res.1, acc.2))
    ([], [])

theorem processNamespace_fold_spec (results : List ProcResult) :
    ∀ (m : List Relationship) (e0 : Option String),
      results.foldl
        (fun acc r =>
          match r with
          | .ok rels => (acc.1 ++ rels, acc.2)
          | .error e =>
            (acc.1,
              match acc.2 with
              | none => some ("processor error: " ++ e)
              | some w => some w))
        (m, e0) =
      (m ++ okContributions results,
        match e0 with
        | some w => some w
        | none => firstProcessorError results) := by
  induction results with
  | nil =>
    intro m e0
    cases e0 <;> simp [okContributions, firstProcessorError]
  | cons r rs ih =>
    intro m e0
    cases r with
    | ok rels =>
      rw [List.foldl_cons]
      simp only []
      rw [ih (m ++ rels) e0]
      simp [okContributions, firstProcessorError, List.append_assoc]
    | error e =>
      rw [List.foldl_cons]
      simp only []
      cases e0 with
      | none =>
        rw [ih m (some ("processor error: " ++ e))]
        simp [okContributions, firstProcessorError]
      | some w =>
        rw [ih m (some w)]
        simp [okContributions, firstProcessorError]

theorem processNamespace_spec (mapping : List Relationship) (results : List ProcResult) :
    processNamespace mapping results =
      (mapping ++ okContributions results, firstProcessorError results) := by
  unfold processNamespace
  rw [processNamespace_fold_spec]

theorem processRun_fold_spec (nss : List (String × List ProcResult)) :
    ∀ acc : List Relationship × List String,
      nss.foldl
        (fun acc p =>
          let res := processNamespace acc.1 p.2
          match res.2 with
          | some w => (res.1, acc.2 ++ ["Error processing namespace " ++ p.1 ++ ": " ++ w])
          | none => (res.1, acc.2))
        acc =
      (acc.1 ++ (nss.map fun p => okContributions p.2).flatten,
        acc.2 ++ nss.filterMap fun p =>
          (firstProcessorError p.2).map
            fun w => "Error processing namespace " ++ p.1 ++ ": " ++ w) := by
  induction nss with
  | nil => intro acc; simp
  | cons p ps ih =>
    intro acc
    cases hE : firstProcessorError p.2 with
    | some w =>
      rw [List.foldl_cons, ih]
      simp [processNamespace_spec, hE, List.append_assoc]
    | none =>
      rw [List.foldl_cons, ih]
      simp [processNamespace_spec, hE, List.append_assoc]

/-- C2: a processor failure (e.g. a `ListFailure` of one kind) inside one
namespace contributes nothing, but the relationships of every succeeding
sibling processor of the same namespace and of every other namespace are
all collected, the failure surfaces only as one per-namespace warning, and
the run is total — it always returns the partial graph together with the
collected warnings. -/
theorem run_collects_partial_graph_and_warnings (nss : List (String × List ProcResult)) :
    (processRun nss).1 = (nss.map fun p => okContributions p.2).flatten ∧
    (processRun nss).2 =
      nss.filterMap (fun p =>
        (firstProcessorError p.2).map
          fun w => "Error processing namespace " ++ p.1 ++ ": " ++ w) := by
  unfold processRun
  rw [processRun_fold_spec]
  simp

/-! ## ConfigMap usage modes (config.go `ConfigMapProcessor`) -/

/-- One `usageTypes[k] = true` Go map assignment: the key list keeps
first-insertion order and stores each key at most once. -/
def insertKey (k : String) (m : List String) : List String :=
  if m.contains k then m else m ++ [k]

/-- Mirror of `mapKeysToSlice` (config.go:546-553): collect the map's keys
and `sort.Strings` them. Go compares byte sequences; for these ASCII keys
that is the character-list order used here. -/
def mapKeysToSlice (m : List String) : List String :=
  m.insertionSort fun a b => a.data ≤ b.data

/-- The usage-mode key set built by `findConfigMapUsageInPodTemplate`
(config.go:515-544) before sorting: the volume scan, then per container the
`envFrom` scan and the per-key `env` scan. -/
def usageKeys (t : GoPodTemplateSpec) (configMapName : String) : List String :=
  let m : List String := []
  let m := t.volumes.foldl
    (fun m v => if v.configMapName == some configMapName then insertKey "volume" m else m) m
  t.containers.foldl
    (fun m c =>
      let m := c.envFrom.foldl
        (fun m e =>
          if e.configMapRefName == some configMapName then insertKey "environment" m else m) m
      c.env.foldl
        (fun m e =>
          if e.configMapKeyRefName == some configMapName then
            insertKey "environment variable" m
          else m) m)
    m

/-- Mirror of `findConfigMapUsageInPodTemplate` (config.go:515-544). -/
def findConfigMapUsageInPodTemplate (t : GoPodTemplateSpec) (configMapName : String) :
    List String :=
  mapKeysToSlice (usageKeys t configMapName)

theorem mem_insertKey (x k : String) (m : List String) :
    x ∈ insertKey k m ↔ x ∈ m ∨ x = k := by
  unfold insertKey
  by_cases hk : k ∈ m
  · have h : m.contains k = true := by simpa using hk
    simp only [h, if_pos]
    constructor
    · exact Or.inl
    · rintro (hx | hx)
      · exact hx
      · exact hx ▸ hk
  · have h : m.contains k = false := by simpa using hk
    simp [hk, List.mem_append]

theorem nodup_insertKey (k : String) (m : List String) (h : m.Nodup) :
    (insertKey k m).Nodup := by
  unfold insertKey
  by_cases hk : k ∈ m
  · simpa [hk] using h
  · simp [hk, List.nodup_append, h]

theorem mem_foldl_insertKey {α : Type} (key : String) (p : α → Bool) (l : List α) :
    ∀ (init : List String) (x : String),
      x ∈ l.foldl (fun m v => if p v then insertKey key m else m) init ↔
        x ∈ init ∨ (x = key ∧ l.any p = true) := by
  induction l with
  | nil => intro init x; simp
  | cons v vs ih =>
    intro init x
    rw [List.foldl_cons]
    by_cases hp : p v
    · simp only [hp, if_pos]
      rw [ih]
      rw [mem_insertKey]
      simp only [List.any_cons, hp, Bool.true_or]
      try tauto
    · simp only [hp, if_neg, Bool.false_eq_true, not_false_iff]
      rw [ih]
      simp only [List.any_cons, hp, Bool.false_or]
      try tauto

theorem nodup_foldl_insertKey {α : Type} (key : String) (p : α → Bool) (l : List α) :
    ∀ init : List String, init.Nodup →
      (l.foldl (fun m v => if p v then insertKey key m else m) init).Nodup := by
  induction l with
  | nil => intro init h; simpa
  | cons v vs ih =>
    intro init h
    rw [List.foldl_cons]
    by_cases hp : p v
    · simp only [hp, if_pos]
      exact ih _ (nodup_insertKey _ _ h)
    · simp only [hp, if_neg, Bool.false_eq_true, not_false_iff]
      exact ih _ h

theorem mem_containers_foldl (n : String) (cs : List GoContainer) :
    ∀ (init : List String) (x : String),
      x ∈ cs.foldl
          (fun m c =>
            let m := c.envFrom.foldl
              (fun m e => if e.configMapRefName == some n then insertKey "environment" m else m) m
            c.env.foldl
              (fun m e =>
                if e.configMapKeyRefName == some n then insertKey "environment variable" m
                else m) m)
          init ↔
        x ∈ init ∨
          (x = "environment" ∧
            (cs.any fun c => c.envFrom.any fun e => e.configMapRefName == some n) = true) ∨
          (x = "environment variable" ∧
            (cs.any fun c => c.env.any fun e => e.configMapKeyRefName == some n) = true) := by
  induction cs with
  | nil => intro init x; simp
  | cons c cs ih =>
    intro init x
    rw [List.foldl_cons]
    rw [ih]
    rw [mem_foldl_insertKey "environment variable" (fun e => e.configMapKeyRefName == some n) c.env]
    rw [mem_foldl_insertKey "environment" (fun e => e.configMapRefName == some n) c.envFrom]
    simp only [List.any_cons, Bool.or_eq_true]
    try tauto

theorem nodup_containers_foldl (n : String) (cs : List GoContainer) :
    ∀ init : List String, init.Nodup →
      (cs.foldl
          (fun m c =>
            let m := c.envFrom.foldl
              (fun m e => if e.configMapRefName == some n then insertKey "environment" m else m) m
            c.env.foldl
              (fun m e =>
                if e.configMapKeyRefName == some n then insertKey "environment variable" m
                else m) m)
          init).Nodup := by
  induction cs with
  | nil => intro init h; simpa
  | cons c cs ih =>
    intro init h
    rw [List.foldl_cons]
    exact ih _ (nodup_foldl_insertKey _ _ _ _ (nodup_foldl_insertKey _ _ _ _ h))

theorem mem_usageKeys (t : GoPodTemplateSpec) (n : String) (x : String) :
    x ∈ usageKeys t n ↔
      (x = "volume" ∧ (t.volumes.any fun v => v.configMapName == some n) = true) ∨
      (x = "environment" ∧
        (t.containers.any fun c => c.envFrom.any fun e => e.configMapRefName == some n) = true) ∨
      (x = "environment variable" ∧
        (t.containers.any fun c => c.env.any fun e => e.configMapKeyRefName == some n) = true) := by
  unfold usageKeys
  rw [mem_containers_foldl]
  rw [mem_foldl_insertKey "volume" (fun v => v.configMapName == some n) t.volumes]
  simp only [List.not_mem_nil, false_or]
  try tauto

theorem nodup_usageKeys (t : GoPodTemplateSpec) (n : String) : (usageKeys t n).Nodup := by
  unfold usageKeys
  exact nodup_containers_foldl _ _ _ (nodup_foldl_insertKey _ _ _ _ List.nodup_nil)

/-- `getDeploymentPhase` is called by `processDeploymentUsage` but its body
is not under src. Modelled from the spec: the status summary's `phase` is
the deployment's readiness classification, i.e. the phase computed by
`getDeploymentStatus`. (No claim depends on this value.) -/
def getDeploymentPhase (d : GoDeployment) : String :=
  (getDeploymentStatus d.readyReplicas d.replicas).phase

/-- The deployment `types.Resource` built by `processDeploymentUsage`
(config.go:410-420). -/
def deployResourceCM (d : GoDeployment) : Resource :=
  { type := resourceTypeDeployment, name := d.name, ns := d.ns, labels := d.labels,
    data := .deploy d,
    status := { phase := getDeploymentPhase d,
                ready := d.readyReplicas == d.replicas, details := "" } }

/-- Mirror of `getConfigMapStatus` (config.go:341-347). -/
def getConfigMapStatus (c : GoConfigMap) : ResourceStatus :=
  { phase := "Active", ready := true,
    details := "Keys: " ++ toString (c.dataCount + c.binaryDataCount) }

/-- The ConfigMap `types.Resource` built by `processConfigMap`
(config.go:282-290). -/
def cmResourceCM (c : GoConfigMap) : Resource :=
  { type := resourceTypeConfigMap, name := c.name, ns := c.ns, labels := c.labels,
    data := .cm c, status := getConfigMapStatus c }

/-- Mirror of `ConfigMapProcessor.processDeploymentUsage`
(config.go:401-433): one `Uses` edge per deployment whose pod template
references the ConfigMap, described by the sorted usage modes. -/
def processDeploymentUsage (cm : GoConfigMap) (deployments : List GoDeployment) :
    List Relationship :=
  deployments.foldl
    (fun acc d =>
      let usageTypes := findConfigMapUsageInPodTemplate d.template cm.name
      if usageTypes.length > 0 then
        acc ++ [{ source := deployResourceCM d, target := cmResourceCM cm,
                  type := relationshipTypeUses,
                  description := "uses as " ++ String.intercalate ", " usageTypes }]
      else acc)
    []

/-- The optional edge `processDeploymentUsage` produces for one deployment. -/
def deploymentUsageEdge (cm : GoConfigMap) (d : GoDeployment) : Option Relationship :=
  let usageTypes := findConfigMapUsageInPodTemplate d.template cm.name
  if usageTypes.length > 0 then
    some { source := deployResourceCM d, target := cmResourceCM cm,
           type := relationshipTypeUses,
           description := "uses as " ++ String.intercalate ", " usageTypes }
  else none

theorem processDeploymentUsage_fold_spec (cm : GoConfigMap) (ds : List GoDeployment) :
    ∀ acc : List Relationship,
      ds.foldl
        (fun acc d =>
          let usageTypes := findConfigMapUsageInPodTemplate d.template cm.name
          if usageTypes.length > 0 then
            acc ++ [{ source := deployResourceCM d, target := cmResourceCM cm,
                      type := relationshipTypeUses,
                      description := "uses as " ++ String.intercalate ", " usageTypes }]
          else acc)
        acc = acc ++ ds.filterMap (deploymentUsageEdge cm) := by
  induction ds with
  | nil => intro acc; simp
  | cons d ds ih =>
    intro acc
    rw [List.foldl_cons]
    by_cases h : (findConfigMapUsageInPodTemplate d.template cm.name).length > 0
    · simp only [h, if_pos]
      rw [ih]
      simp [deploymentUsageEdge, h]
    · simp only [h, if_neg]
      rw [ih]
      simp [deploymentUsageEdge, h]

theorem processDeploymentUsage_eq_filterMap (cm : GoConfigMap) (ds : List GoDeployment) :
    processDeploymentUsage cm ds = ds.filterMap (deploymentUsageEdge cm) := by
  unfold processDeploymentUsage
  rw [processDeploymentUsage_fold_spec]
  rfl

theorem filter_filterMap_usage_nil (cm : GoConfigMap) (name : String)
    (ds : List GoDeployment) (h : name ∉ ds.map GoDeployment.name) :
    (ds.filterMap (deploymentUsageEdge cm)).filter
      (fun r => r.source.name == name) = [] := by
  induction ds with
  | nil => rfl
  | cons d ds ih =>
    simp only [List.map_cons, List.mem_cons, not_or] at h
    rw [List.filterMap_cons]
    cases hE : deploymentUsageEdge cm d with
    | none => exact ih h.2
    | some e =>
      have hname : e.source.name = d.name := by
        unfold deploymentUsageEdge at hE
        by_cases hu : (findConfigMapUsageInPodTemplate d.template cm.name).length > 0
        · simp only [hu, if_pos, Option.some.injEq] at hE
          rw [← hE]
          rfl
        · simp [hu] at hE
      rw [List.filter_cons]
      have : (e.source.name == name) = false := by
        simp [hname]
        exact fun hcon => h.1 hcon.symm
      simp only [this, Bool.false_eq_true, if_neg, not_false_iff]
      exact ih h.2

/-- C4: when a Deployment's pod template references ConfigMap C via a
ConfigMap volume, a container `envFrom` ConfigMap reference and a per-key
environment variable simultaneously, the usage-mode list is exactly the
three tokens deduplicated and sorted lexicographically, and
`processDeploymentUsage` emits exactly one `Uses` edge from that
Deployment to C, whose description joins the three tokens. -/
theorem configmap_three_modes_single_edge (cm : GoConfigMap)
    (ds : List GoDeployment) (d : GoDeployment)
    (hd : d ∈ ds) (hnames : (ds.map GoDeployment.name).Nodup)
    (hvol : (d.template.volumes.any fun v => v.configMapName == some cm.name) = true)
    (hef : (d.template.containers.any fun c =>
      c.envFrom.any fun e => e.configMapRefName == some cm.name) = true)
    (hev : (d.template.containers.any fun c =>
      c.env.any fun e => e.configMapKeyRefName == some cm.name) = true) :
    findConfigMapUsageInPodTemplate d.template cm.name =
      ["environment", "environment variable", "volume"] ∧
    (processDeploymentUsage cm ds).filter (fun r => r.source.name == d.name) =
      [{ source := deployResourceCM d, target := cmResourceCM cm,
         type := relationshipTypeUses,
         description := "uses as environment, environment variable, volume" }] := by
  haveI instTot : IsTotal String fun a b : String => a.data ≤ b.data :=
    ⟨fun a b => le_total a.data b.data⟩
  haveI instTrans : IsTrans String fun a b : String => a.data ≤ b.data :=
    ⟨fun _ _ _ hab hbc => le_trans hab hbc⟩
  haveI instAnti : IsAntisymm String fun a b : String => a.data ≤ b.data :=
    ⟨fun a b hab hba => by
      cases a; cases b
      exact congrArg String.mk (le_antisymm hab hba)⟩
  have husage : findConfigMapUsageInPodTemplate d.template cm.name =
      ["environment", "environment variable", "volume"] := by
    unfold findConfigMapUsageInPodTemplate
    have hmem : ∀ x, x ∈ usageKeys d.template cm.name ↔
        x ∈ (["environment", "environment variable", "volume"] : List String) := by
      intro x
      rw [mem_usageKeys]
      simp only [hvol, hef, hev, and_true]
      constructor
      · rintro (h | h | h) <;> simp [h]
      · intro h
        rcases List.mem_cons.mp h with h | h
        · exact Or.inr (Or.inl h)
        rcases List.mem_cons.mp h with h | h
        · exact Or.inr (Or.inr h)
        rcases List.mem_cons.mp h with h | h
        · exact Or.inl h
        · cases h
    have hperm : List.Perm (usageKeys d.template cm.name)
        ["environment", "environment variable", "volume"] := by
      rw [List.perm_iff_count]
      intro a
      by_cases ha : a ∈ usageKeys d.template cm.name
      · rw [List.count_eq_one_of_mem (nodup_usageKeys _ _) ha]
        rw [List.count_eq_one_of_mem (by decide) ((hmem a).mp ha)]
      · rw [List.count_eq_zero.mpr ha, Eq.comm, List.count_eq_zero]
        intro hcon
        exact ha ((hmem a).mpr hcon)
    unfold mapKeysToSlice
    refine List.eq_of_perm_of_sorted
      ((List.perm_insertionSort _ _).trans hperm)
      (List.sorted_insertionSort _ _) (by decide)
  refine ⟨husage, ?_⟩
  rw [processDeploymentUsage_eq_filterMap]
  clear hvol hef hev
  induction ds with
  | nil => cases hd
  | cons a as ih =>
    rcases List.mem_cons.mp hd with hda | hda
    · subst hda
      rw [List.filterMap_cons]
      have hEdge : deploymentUsageEdge cm d =
          some { source := deployResourceCM d, target := cmResourceCM cm,
                 type := relationshipTypeUses,
                 description := "uses as environment, environment variable, volume" } := by
        unfold deploymentUsageEdge
        rw [husage]
        rfl
      rw [hEdge]
      simp only [List.map_cons, List.nodup_cons] at hnames
      simp [deployResourceCM, filter_filterMap_usage_nil cm d.name as hnames.1]
    · simp only [List.map_cons, List.nodup_cons] at hnames
      have hne : a.name ≠ d.name := by
        intro hcon
        exact hnames.1 (hcon ▸ List.mem_map_of_mem GoDeployment.name hda)
      rw [List.filterMap_cons]
      cases hE : deploymentUsageEdge cm a with
      | none => exact ih hda hnames.2
      | some e =>
        have hname : e.source.name = a.name := by
          unfold deploymentUsageEdge at hE
          by_cases hu : (findConfigMapUsageInPodTemplate a.template cm.name).length > 0
          · simp only [hu, if_pos, Option.some.injEq] at hE
            rw [← hE]
            rfl
          · simp [hu] at hE
        rw [List.filter_cons]
        have hfalse : (e.source.name == d.name) = false := by
          rw [hname]
          simpa using fun hcon => hne hcon
        simp only [hfalse, Bool.false_eq_true, if_neg, not_false_iff]
        exact ih hda hnames.2

/-- Concrete ConfigMap for the C4 witness. -/
def cmWitness : GoConfigMap :=
  { name := "app-config", ns := "default", labels := [],
    dataCount := 1, binaryDataCount := 0 }

/-- Concrete Deployment for the C4 witness: its pod template references
`app-config` via a volume, an `envFrom` entry and a per-key env var. -/
def deployWitness : GoDeployment :=
  { name := "web", ns := "default", labels := [],
    template :=
      { volumes := [{ configMapName := some "app-config" }],
        containers := [{ envFrom := [{ configMapRefName := some "app-config" }],
                         env := [{ configMapKeyRefName := some "app-config" }] }] },
    readyReplicas := 2, replicas := 2 }

/-- Concrete instantiation of `configmap_three_modes_single_edge`: one
deployment referencing ConfigMap `app-config` via volume, `envFrom` and a
per-key env var at once. -/
theorem configmap_three_modes_single_edge_witness :
    findConfigMapUsageInPodTemplate deployWitness.template cmWitness.name =
      ["environment", "environment variable", "volume"] ∧
    (processDeploymentUsage cmWitness [deployWitness]).filter
      (fun r => r.source.name == deployWitness.name) =
      [{ source := deployResourceCM deployWitness, target := cmResourceCM cmWitness,
         type := relationshipTypeUses,
         description := "uses as environment, environment variable, volume" }] :=
  configmap_three_modes_single_edge cmWitness [deployWitness] deployWitness
    (by simp) (by decide) (by decide) (by decide) (by decide)

/-- Concrete resource for the C5 witness (payload `a`). -/
def rWitnessA : Resource :=
  { type := "Service", name := "web", ns := "default", labels := [],
    data := .raw "payload-a", status := { phase := "", ready := false, details := "" } }

/-- Concrete resource for the C5 witness: same `(kind, namespace, name)`
triple as `rWitnessA`, different payload. -/
def rWitnessB : Resource :=
  { type := "Service", name := "web", ns := "default", labels := [],
    data := .raw "payload-b", status := { phase := "", ready := false, details := "" } }

/-- Concrete instantiation of `resource_identity_idempotent`: the same
identity triple inserted by two different processors with different
payloads collapses to one entry. -/
theorem resource_identity_idempotent_witness :
    (processResourcesCollect [[rWitnessA], [rWitnessB]]).countP
      (fun r => ResourceKey r == ResourceKey rWitnessA) = 1 :=
  resource_identity_idempotent [[rWitnessA], [rWitnessB]] rWitnessA rWitnessB
    [rWitnessA] [rWitnessB] (by simp) (by simp) (by simp) (by simp) rfl rfl rfl

/-! ## Ingress backend services (deployment-processor.go
`IngressProcessor.processBackendServices`) and the part_002
`ServiceProcessor` ingress loop -/

/-- Provider `Services(namespace).Get(name)`: lookup in the cluster's
service population, scoped by namespace. -/
def getServiceByName (svcs : List GoService) (ns name : String) : Option GoService :=
  svcs.find? fun s => s.ns == ns && s.name == name

/-- Mirror of `IngressProcessor.processService`
(deployment-processor.go:564-592): a failed `Get` is skipped (nil error);
a found service contributes one resource and one `Exposes` edge with the
given description. -/
def ingressProcessService (svcs : List GoService) (ns : String)
    (backend : GoServiceBackend) (ingRes : Resource) (description : String) :
    List Resource × List Relationship :=
  match getServiceByName svcs ns backend.name with
  | none => ([], [])
  | some svc =>
    let svcRes : Resource :=
      { type := resourceTypeService, name := svc.name, ns := svc.ns,
        labels := svc.labels, data := .svc svc,
        status := { phase := "Active", ready := true,
                    details := "Port: " ++ toString backend.portNumber } }
    ([svcRes],
     [{ source := ingRes, target := svcRes, type := relationshipTypeExposes,
        description := description }])

/-- The `(host, path)` pairs visited by the rules loop of
`processBackendServices`, in iteration order (rules with nil `HTTP`
skipped). -/
def ingressPathEntries (ing : GoIngress) : List (String × GoIngressPath) :=
  ing.rules.foldl
    (fun acc r =>
      match r.http with
      | none => acc
      | some ps => acc ++ ps.map fun p => (r.host, p))
    []

/-- The rules loop of `processBackendServices`
(deployment-processor.go:541-558), carrying the `processedServices` set
(the Go map's keys, modelled as the name list): a path whose backend
service is nil or whose name was already processed is skipped; otherwise
the service is processed and its name marked. -/
def processBackendServicesLoop (svcs : List GoService) (ns : String) (ingRes : Resource) :
    List (String × GoIngressPath) → List String → List Resource × List Relationship
  | [], _ => ([], [])
  | (host, p) :: rest, processed =>
    match p.backendService with
    | none => processBackendServicesLoop svcs ns ingRes rest processed
    | some b =>
      if processed.contains b.name then
        processBackendServicesLoop svcs ns ingRes rest processed
      else
        let out := ingressProcessService svcs ns b ingRes
          ("host: " ++ host ++ ", path: " ++ p.path)
        let outRest := processBackendServicesLoop svcs ns ingRes rest (processed ++ [b.name])
        (out.1 ++ outRest.1, out.2 ++ outRest.2)

/-- Mirror of `IngressProcessor.processBackendServices`
(deployment-processor.go:530-561): the default backend, when present, is
processed first (description `"default backend"`) and its name marked
processed before the rules loop runs. -/
def processBackendServices (svcs : List GoService) (ing : GoIngress) (ingRes : Resource) :
    List Resource × List Relationship :=
  match ing.defaultBackend with
  | some b =>
    let out := ingressProcessService svcs ing.ns b ingRes "default backend"
    let outRest := processBackendServicesLoop svcs ing.ns ingRes
      (ingressPathEntries ing) [b.name]
    (out.1 ++ outRest.1, out.2 ++ outRest.2)
  | none => processBackendServicesLoop svcs ing.ns ingRes (ingressPathEntries ing) []

theorem ingressProcessService_target_name (svcs : List GoService) (ns : String)
    (b : GoServiceBackend) (ingRes : Resource) (desc : String) :
    ∀ e ∈ (ingressProcessService svcs ns b ingRes desc).2, e.target.name = b.name := by
  intro e he
  unfold ingressProcessService at he
  cases hg : getServiceByName svcs ns b.name with
  | none => rw [hg] at he; cases he
  | some svc =>
    rw [hg] at he
    have hpred := List.find?_some hg
    simp only [Bool.and_eq_true, beq_iff_eq] at hpred
    simp only [List.mem_singleton] at he
    rw [he]
    exact hpred.2

theorem processBackendServicesLoop_inv (svcs : List GoService) (ns : String)
    (ingRes : Resource) (entries : List (String × GoIngressPath)) :
    ∀ processed : List String,
      (((processBackendServicesLoop svcs ns ingRes entries processed).2.map
          fun e => e.target.name).Nodup) ∧
      (∀ n ∈ (processBackendServicesLoop svcs ns ingRes entries processed).2.map
          (fun e => e.target.name), n ∉ processed) := by
  induction entries with
  | nil => intro processed; simp [processBackendServicesLoop]
  | cons hp rest ih =>
    intro processed
    obtain ⟨host, p⟩ := hp
    cases hb : p.backendService with
    | none =>
      have heq : processBackendServicesLoop svcs ns ingRes ((host, p) :: rest) processed =
          processBackendServicesLoop svcs ns ingRes rest processed := by
        simp [processBackendServicesLoop, hb]
      rw [heq]
      exact ih processed
    | some b =>
      by_cases hc : b.name ∈ processed
      · have heq : processBackendServicesLoop svcs ns ingRes ((host, p) :: rest) processed =
            processBackendServicesLoop svcs ns ingRes rest processed := by
          simp [processBackendServicesLoop, hb, hc]
        rw [heq]
        exact ih processed
      · have heq : (processBackendServicesLoop svcs ns ingRes ((host, p) :: rest) processed).2 =
            (ingressProcessService svcs ns b ingRes
              ("host: " ++ host ++ ", path: " ++ p.path)).2 ++
            (processBackendServicesLoop svcs ns ingRes rest (processed ++ [b.name])).2 := by
          simp [processBackendServicesLoop, hb, hc]
        rw [heq]
        obtain ⟨hnd, hnot⟩ := ih (processed ++ [b.name])
        have htail : ∀ n ∈ (processBackendServicesLoop svcs ns ingRes rest
            (processed ++ [b.name])).2.map (fun e => e.target.name), n ≠ b.name := by
          intro n hn hcon
          exact hnot n hn (List.mem_append.mpr (Or.inr (List.mem_singleton.mpr hcon)))
        constructor
        · rw [List.map_append, List.nodup_append]
          refine ⟨?_, hnd, ?_⟩
          · cases hg : getServiceByName svcs ns b.name <;> simp [ingressProcessService, hg]
          · intro n hn hm
            obtain ⟨e, he, hen⟩ := List.mem_map.mp hn
            have hnb : n = b.name := by
              rw [← hen]
              exact ingressProcessService_target_name svcs ns b ingRes _ e he
            exact htail n hm hnb
        · intro n hn
          rw [List.map_append, List.mem_append] at hn
          rcases hn with hn | hn
          · obtain ⟨e, he, hen⟩ := List.mem_map.mp hn
            have hnb : n = b.name := by
              rw [← hen]
              exact ingressProcessService_target_name svcs ns b ingRes _ e he
            rw [hnb]
            exact hc
          · intro hmem
            exact hnot n hn (List.mem_append.mpr (Or.inl hmem))

/-! The part_002 `ServiceProcessor` variant. -/

/-- The Ingress resource built inside the part_002 `ServiceProcessor`
ingress loop (part_002:88-94); part_002's `types.Resource` carries no
status, i.e. the Go zero value. -/
def part002IngResource (ing : GoIngress) : Resource :=
  { type := resourceTypeIngress, name := ing.name, ns := ing.ns,
    labels := ing.labels, data := .ing ing,
    status := { phase := "", ready := false, details := "" } }

/-- The service resource built at the top of the part_002
`ServiceProcessor.Process` loop (part_002:36-42), status zero-valued. -/
def part002SvcResource (svc : GoService) : Resource :=
  { type := resourceTypeService, name := svc.name, ns := svc.ns,
    labels := svc.labels, data := .svc svc,
    status := { phase := "", ready := false, details := "" } }

/-- The `Exposes` edge appended by the part_002 ingress loop for one
matching path occurrence (part_002:96-101). -/
def part002Edge (svc : GoService) (ing : GoIngress) (rule : GoIngressRule)
    (p : GoIngressPath) : Relationship :=
  { source := part002IngResource ing, target := part002SvcResource svc,
    type := relationshipTypeExposes,
    description := "exposes via " ++ rule.host ++ p.path }

/-- One iteration of the part_002 path loop (part_002:86-103): a path whose
backend service name equals the service's name appends one `Exposes` edge.
(part_002 dereferences `path.Backend.Service` without a nil check; a nil
backend is modelled as not matching.) -/
def part002PathStep (svc : GoService) (ing : GoIngress) (rule : GoIngressRule)
    (acc : List Relationship) (p : GoIngressPath) : List Relationship :=
  match p.backendService with
  | none => acc
  | some b =>
    if b.name == svc.name then acc ++ [part002Edge svc ing rule p] else acc

/-- One iteration of the part_002 rule loop (part_002:84-105): rules with
nil `HTTP` are skipped. -/
def part002RuleStep (svc : GoService) (ing : GoIngress)
    (acc : List Relationship) (rule : GoIngressRule) : List Relationship :=
  match rule.http with
  | none => acc
  | some ps => ps.foldl (part002PathStep svc ing rule) acc

/-- One iteration of the part_002 ingress loop (part_002:83-106). -/
def part002IngStep (svc : GoService) (acc : List Relationship) (ing : GoIngress) :
    List Relationship :=
  ing.rules.foldl (part002RuleStep svc ing) acc

/-- Mirror of the ingress scan inside the part_002
`ServiceProcessor.Process` (part_002:77-106): every HTTP path whose backend
service name equals the service's name appends one `Exposes` edge — no
deduplication. -/
def part002ProcessIngresses (svc : GoService) (ingresses : List GoIngress) :
    List Relationship :=
  ingresses.foldl (part002IngStep svc) []

/-- Whether a path's backend references the service, as tested by
part_002's `path.Backend.Service.Name == svc.Name`. -/
def part002Matches (svc : GoService) (p : GoIngressPath) : Bool :=
  match p.backendService with
  | none => false
  | some b => b.name == svc.name

theorem part002_paths_fold (svc : GoService) (ing : GoIngress) (rule : GoIngressRule)
    (ps : List GoIngressPath) :
    ∀ acc : List Relationship,
      ps.foldl (part002PathStep svc ing rule) acc =
        acc ++ (ps.filter (part002Matches svc)).map (part002Edge svc ing rule) := by
  induction ps with
  | nil => intro acc; simp
  | cons p ps ih =>
    intro acc
    rw [List.foldl_cons]
    cases hb : p.backendService with
    | none =>
      have hstep : part002PathStep svc ing rule acc p = acc := by
        simp [part002PathStep, hb]
      rw [hstep, ih]
      simp [part002Matches, List.filter_cons, hb]
    | some b =>
      by_cases hname : b.name == svc.name
      · have hstep : part002PathStep svc ing rule acc p =
            acc ++ [part002Edge svc ing rule p] := by
          simp [part002PathStep, hb, hname]
        rw [hstep, ih]
        simp [part002Matches, List.filter_cons, hb, hname, List.append_assoc]
      · have hstep : part002PathStep svc ing rule acc p = acc := by
          simp [part002PathStep, hb, hname]
        rw [hstep, ih]
        simp [part002Matches, List.filter_cons, hb, hname]

/-- The edges one ingress rule contributes in the part_002 loop. -/
def part002RuleEdges (svc : GoService) (ing : GoIngress) (rule : GoIngressRule) :
    List Relationship :=
  match rule.http with
  | none => []
  | some ps => (ps.filter (part002Matches svc)).map (part002Edge svc ing rule)

theorem part002_rules_fold (svc : GoService) (ing : GoIngress)
    (rules : List GoIngressRule) :
    ∀ acc : List Relationship,
      rules.foldl (part002RuleStep svc ing) acc =
        acc ++ (rules.map (part002RuleEdges svc ing)).flatten := by
  induction rules with
  | nil => intro acc; simp
  | cons rule rules ih =>
    intro acc
    rw [List.foldl_cons]
    have hstep : part002RuleStep svc ing acc rule =
        acc ++ part002RuleEdges svc ing rule := by
      unfold part002RuleStep part002RuleEdges
      cases hh : rule.http with
      | none => simp
      | some ps =>
        show ps.foldl (part002PathStep svc ing rule) acc =
          acc ++ (ps.filter (part002Matches svc)).map (part002Edge svc ing rule)
        rw [part002_paths_fold]
    rw [hstep, ih]
    simp [List.append_assoc]

theorem part002_ings_fold (svc : GoService) (ingresses : List GoIngress) :
    ∀ acc : List Relationship,
      ingresses.foldl (part002IngStep svc) acc =
        acc ++ (ingresses.map fun ing =>
          (ing.rules.map (part002RuleEdges svc ing)).flatten).flatten := by
  induction ingresses with
  | nil => intro acc; simp
  | cons ing ings ih =>
    intro acc
    rw [List.foldl_cons]
    have hstep : part002IngStep svc acc ing =
        acc ++ (ing.rules.map (part002RuleEdges svc ing)).flatten := by
      unfold part002IngStep
      rw [part002_rules_fold]
    rw [hstep, ih]
    simp [List.append_assoc]

/-- C1 (amended): the modular `IngressProcessor.processBackendServices`
deduplicates by backend service name — its `Exposes` edges have pairwise
distinct target service names, so a second path rule to the same Service
adds no second edge — while the part_002 `ServiceProcessor` appends exactly
one `Exposes` edge per matching path occurrence, undeduplicated, each
carrying its own `"exposes via <host><path>"` description. -/
theorem ingress_exposes_dedup_and_per_occurrence :
    (∀ (svcs : List GoService) (ing : GoIngress) (ingRes : Resource),
      (((processBackendServices svcs ing ingRes).2).map fun e => e.target.name).Nodup) ∧
    (∀ (svc : GoService) (ingresses : List GoIngress),
      part002ProcessIngresses svc ingresses =
        (ingresses.map fun ing =>
          (ing.rules.map (part002RuleEdges svc ing)).flatten).flatten) := by
  constructor
  · intro svcs ing ingRes
    unfold processBackendServices
    cases hd : ing.defaultBackend with
    | none => exact (processBackendServicesLoop_inv svcs ing.ns ingRes _ []).1
    | some b =>
      obtain ⟨hnd, hnotin⟩ :=
        processBackendServicesLoop_inv svcs ing.ns ingRes (ingressPathEntries ing) [b.name]
      simp only [List.map_append, List.nodup_append]
      refine ⟨?_, hnd, ?_⟩
      · cases hg : getServiceByName svcs ing.ns b.name with
        | none => simp [ingressProcessService, hg]
        | some svc => simp [ingressProcessService, hg]
      · intro n hn hm
        obtain ⟨e, he, hen⟩ := List.mem_map.mp hn
        have hnb : n = b.name := by
          rw [← hen]
          exact ingressProcessService_target_name svcs ing.ns b ingRes "default backend" e he
        exact (hnotin n hm) (List.mem_singleton.mpr hnb)
  · intro svc ingresses
    unfold part002ProcessIngresses
    rw [part002_ings_fold svc ingresses]
    simp

/-- Concrete service for the C1 counterexample. -/
def webSvcC1 : GoService :=
  { name := "web-svc", ns := "default", labels := [], selector := none,
    ports := [], specType := "ClusterIP", clusterIP := "10.0.0.1", lbIngress := [] }

/-- Concrete Ingress for the C1 counterexample: two HTTP path rules (`/a`
and `/b`) whose backends reference the same Service `web-svc`. -/
def ingC1 : GoIngress :=
  { name := "web-ing", ns := "default", labels := [],
    rules := [{ host := "app.example.com",
                http := some [{ path := "/a",
                                backendService := some { name := "web-svc", portNumber := 80 } },
                              { path := "/b",
                                backendService := some { name := "web-svc", portNumber := 80 } }] }],
    defaultBackend := none, tls := [], lbIngress := [] }

/-- C1 counterexample: the claim says an Ingress with two path rules
pointing at the same Service yields two distinct `Exposes` edges, but
`processBackendServices` skips the second occurrence via its
`processedServices` set and produces exactly one edge. -/
theorem ingress_two_paths_single_edge_counterexample :
    (processBackendServices [webSvcC1] ingC1 (ingressResource ingC1)).2.length = 1 ∧
    ¬ (processBackendServices [webSvcC1] ingC1 (ingressResource ingC1)).2.length = 2 := by
  constructor
  · decide
  · decide

/-! ## The layered renderer (visualizer.go) -/

def colorRed : String := "\x1b[0;31m"

def colorGreen : String := "\x1b[0;32m"

def colorYellow : String := "\x1b[1;33m"

def colorBlue : String := "\x1b[0;34m"

def colorMagenta : String := "\x1b[0;35m"

def colorCyan : String := "\x1b[0;36m"

def colorGray : String := "\x1b[0;37m"

def colorBoldRed : String := "\x1b[1;31m"

def colorBoldGreen : String := "\x1b[1;32m"

def colorBoldBlue : String := "\x1b[1;34m"

def colorReset : String := "\x1b[0m"

/-- Mirror of `utils.Colorize` — always wraps, regardless of the global
disable flag. -/
def colorizeRaw (color text : String) : String :=
  color ++ text ++ colorReset

/-- Mirror of `utils.ColorizedPrintf`: `Sprintf(color+format+Reset, ...)`,
where `utils.Sprintf` strips the ANSI codes from the format when
`DisableColors` is set. The only codes present are the ones just wrapped
around the body, so stripping equals emitting the plain body. -/
def colorizedText (disable : Bool) (color body : String) : String :=
  if disable then body else color ++ body ++ colorReset

/-- Mirror of `utils.ResourceColors` (association in map-literal order). -/
def resourceColors : List (String × String) :=
  [("Namespace", colorCyan), ("Pod", colorGreen), ("Service", colorBlue),
   ("Ingress", colorMagenta), ("ConfigMap", colorYellow),
   ("Deployment", colorBoldBlue), ("HPA", colorBoldGreen),
   ("Secret", colorBoldRed), ("Default", colorGray)]

/-- Mirror of `utils.GetResourceColor`. -/
def getResourceColor (resourceType : String) : String :=
  match resourceColors.lookup resourceType with
  | some c => c
  | none => colorGray

/-- Mirror of `Visualizer.filterResourcesByType` (visualizer.go:316-324):
a plain filter that preserves the mapping's discovery order — no sort. -/
def filterResourcesByType (v : Visualizer) (resourceType : ResourceType) :
    List Resource :=
  v.resourceMapping.resources.filter fun r => r.type == resourceType

/-- Mirror of `Visualizer.formatResource` (visualizer.go:261-263). -/
def vFormatResource (v : Visualizer) (r : Resource) : String :=
  colorizedText v.disableColors (getResourceColor r.type) (r.type ++ "/" ++ r.name)

/-- Mirror of `Visualizer.getPrefix` (visualizer.go:265-270). -/
def getPrefix (isLast : Bool) : String :=
  if isLast then "└── " else "├── "

/-- Mirror of `Visualizer.getIndent` (visualizer.go:272-277): four spaces,
or the vertical glyph plus three spaces. -/
def getIndent (isLast : Bool) : String :=
  if isLast then "    " else "│   "

/-- Mirror of `Visualizer.colorize` (visualizer.go:279-284). -/
def vColorize (v : Visualizer) (color text : String) : String :=
  if !v.colorOutput then text else colorizeRaw color text

/-- Mirror of `Visualizer.getPodStatusSymbol` (visualizer.go:286-295). -/
def getPodStatusSymbol (v : Visualizer) (phase : String) : String :=
  match phase with
  | "Running" => vColorize v colorGreen "✓"
  | "Pending" => vColorize v colorYellow "⚠"
  | _ => vColorize v colorRed "✗"

/-- Mirror of `Visualizer.getDeploymentStatusSymbol` (visualizer.go:297-304). -/
def getDeploymentStatusSymbol (v : Visualizer) (ready desired : Int) : String :=
  if ready = desired then vColorize v colorGreen "✓"
  else if ready > 0 then vColorize v colorYellow "⚠"
  else vColorize v colorRed "✗"

/-- A Go `for i, x := range xs` loop whose body receives
`isLast := i == len(xs)-1` and appends to the output builder. -/
def renderEach {α : Type} (xs : List α) (f : α → Bool → String) : String :=
  match xs with
  | [] => ""
  | [x] => f x true
  | x :: y :: rest => f x false ++ renderEach (y :: rest) f

/-- Mirror of `Visualizer.renderHeader` (visualizer.go:79-84). The
generation timestamp comes from `utils.GetCurrentTime`, whose body is not
under src; modelled from its call site as the render-time clock reading,
passed as `now`. -/
def renderHeader (v : Visualizer) (now : String) : String :=
  colorizedText v.disableColors colorGreen "Kubernetes Resource Map" ++ "\n" ++
  String.mk (List.replicate 80 '-') ++ "\n" ++
  colorizedText v.disableColors colorGray ("Generated at: " ++ now)

/-- Mirror of `Visualizer.renderIngressLayer` (visualizer.go:86-121). The
payload type assertions of the Go code are the `Payload` matches here. -/
def renderIngressLayer (v : Visualizer) : String :=
  colorizedText v.disableColors colorBlue "[Ingress Layer]\n" ++
  renderEach (filterResourcesByType v resourceTypeIngress) (fun ingress isLast =>
    getPrefix isLast ++ vColorize v colorMagenta "●" ++ " " ++
      vFormatResource v ingress ++ "\n" ++
    (match ingress.data with
     | .ing i =>
       if i.tls.length > 0 then
         getIndent isLast ++ "  " ++ vColorize v colorGreen "✓" ++ " TLS Enabled\n"
       else ""
     | _ => "") ++
    renderEach (findRelationships v ingress relationshipTypeExposes)
      (fun rel isLastInner =>
        let isLastRel := isLast && isLastInner
        getIndent isLastRel ++ "  " ++ vColorize v colorBlue "➜" ++ " " ++
          vFormatResource v rel.target ++ " via " ++ rel.description ++ "\n"))

/-- Mirror of `Visualizer.renderServiceLayer` (visualizer.go:123-173). -/
def renderServiceLayer (v : Visualizer) : String :=
  colorizedText v.disableColors colorBlue "[Service Layer]\n" ++
  renderEach (filterResourcesByType v resourceTypeService) (fun svc isLast =>
    getPrefix isLast ++ vColorize v colorBlue "●" ++ " " ++
      vFormatResource v svc ++ "\n" ++
    (if v.showDetails then
      match svc.data with
      | .svc s =>
        getIndent isLast ++ "  " ++ vColorize v colorGray "ℹ" ++ " Type: " ++
          s.specType ++ "\n" ++
        getIndent isLast ++ "  " ++ vColorize v colorGray "ℹ" ++ " Ports: " ++
          formatPorts s.ports ++ "\n"
      | _ => ""
     else "") ++
    renderEach (findRelationships v svc relationshipTypeTargets)
      (fun rel isLastInner =>
        let isLastRel := isLast && isLastInner
        getIndent isLastRel ++ "  " ++ vColorize v colorGreen "➜" ++ " " ++
          vFormatResource v rel.target ++ "\n" ++
        match rel.target.data with
        | .pod pod =>
          getIndent isLastRel ++ "     " ++ getPodStatusSymbol v pod.phase ++ " " ++
            pod.phase ++ "\n"
        | _ => ""))

/-- Mirror of `Visualizer.renderWorkloadLayer` (visualizer.go:175-227).
The HPA block iterates the deployment's `Targets` lookups without an
is-last index; since `findRelationships` keys on the source and an HPA
edge's source is the HPA, the inner condition can never hold — kept as in
the source. -/
def renderWorkloadLayer (v : Visualizer) : String :=
  colorizedText v.disableColors colorBlue "[Workload Layer]\n" ++
  renderEach (filterResourcesByType v resourceTypeDeployment) (fun deploy isLast =>
    getPrefix isLast ++ vColorize v colorYellow "●" ++ " " ++
      vFormatResource v deploy ++ "\n" ++
    (if v.showDetails then
      match deploy.data with
      | .deploy d =>
        getIndent isLast ++ "  " ++
          getDeploymentStatusSymbol v d.readyReplicas d.replicas ++ " " ++
          toString d.readyReplicas ++ "/" ++ toString d.replicas ++
          " replicas ready" ++ "\n"
      | _ => ""
     else "") ++
    String.join ((findRelationships v deploy relationshipTypeTargets).map fun rel =>
      if rel.source.type == resourceTypeHPA then
        getIndent isLast ++ "  " ++ vColorize v colorCyan "⟳" ++ " " ++
          rel.description ++ "\n"
      else "") ++
    renderEach (findRelationships v deploy relationshipTypeOwns)
      (fun rel isLastInner =>
        let isLastRel := isLast && isLastInner
        getIndent isLastRel ++ "  " ++ vColorize v colorGreen "➜" ++ " " ++
          vFormatResource v rel.target ++ "\n"))

/-- Mirror of `Visualizer.renderStorageLayer` (visualizer.go:229-257). -/
def renderStorageLayer (v : Visualizer) : String :=
  colorizedText v.disableColors colorBlue "[Storage Layer]\n" ++
  renderEach (filterResourcesByType v resourceTypeConfigMap) (fun cmr isLast =>
    getPrefix isLast ++ vColorize v colorYellow "●" ++ " " ++
      vFormatResource v cmr ++ "\n" ++
    renderEach (findRelationshipsForTarget v cmr relationshipTypeUses)
      (fun rel isLastInner =>
        let isLastRel := isLast && isLastInner
        getIndent isLastRel ++ "  " ++ vColorize v colorBlue "➜" ++ " Used by " ++
          vFormatResource v rel.source ++ " (" ++ rel.description ++ ")\n"))

/-- Mirror of `Visualizer.RenderClusterView` (visualizer.go:50-77). -/
def renderClusterView (v : Visualizer) (now : String) : String :=
  renderHeader v now ++ "\n" ++
  "External Traffic\n" ++ "│\n" ++
  renderIngressLayer v ++ "\n" ++
  renderServiceLayer v ++ "\n" ++
  renderWorkloadLayer v ++ "\n" ++
  renderStorageLayer v

/-- A Service resource in namespace `ns1` named `a-svc` (renderer tests). -/
def svcResA : Resource :=
  { type := "Service", name := "a-svc", ns := "ns1", labels := [],
    data := .raw "", status := { phase := "", ready := false, details := "" } }

/-- A Service resource in namespace `ns2` named `b-svc` (renderer tests). -/
def svcResB : Resource :=
  { type := "Service", name := "b-svc", ns := "ns2", labels := [],
    data := .raw "", status := { phase := "", ready := false, details := "" } }

/-- Renderer over the mapping that discovered `b-svc` before `a-svc` —
not sorted by `(namespace, name)`. -/
def vizUnsorted : Visualizer :=
  { resourceMapping := { resources := [svcResB, svcResA], relationships := [] },
    showDetails := false, colorOutput := false, disableColors := true }

/-- Renderer over the same resource set discovered in the opposite
(sorted) order. -/
def vizSorted : Visualizer :=
  { resourceMapping := { resources := [svcResA, svcResB], relationships := [] },
    showDetails := false, colorOutput := false, disableColors := true }

set_option maxRecDepth 40000 in
/-- C6 counterexample: the same frozen set of resources rendered from two
discovery orders produces different bytes (the layers follow discovery
order, not a `(namespace, name)` sort), and the same mapping rendered at
two clock readings produces different bytes (the header embeds the
generation time). -/
theorem render_order_and_time_counterexample :
    renderClusterView vizUnsorted "2026-10-11 10:00:00" ≠
      renderClusterView vizSorted "2026-10-11 10:00:00" ∧
    renderClusterView vizUnsorted "2026-10-11 10:00:00" ≠
      renderClusterView vizUnsorted "2026-10-11 10:00:01" := by
  constructor
  · decide
  · decide

set_option maxRecDepth 40000 in
/-- C6 (amended): rendering is a pure function of the frozen mapping, the
display switches and the header timestamp — with all of those fixed the
output is byte-identical — but each layer presents its resources in the
mapping's discovery order (`filterResourcesByType` is an order-preserving
filter, with no `(namespace, name)` sort), and the output changes with the
header's generation time. -/
theorem render_deterministic_given_inputs :
    (∀ (v : Visualizer) (now : String), renderClusterView v now = renderClusterView v now) ∧
    (∀ (v : Visualizer) (t : ResourceType),
      filterResourcesByType v t =
        v.resourceMapping.resources.filter fun r => r.type == t) ∧
    renderClusterView vizUnsorted "12:00:00" ≠ renderClusterView vizSorted "12:00:00" ∧
    renderClusterView vizUnsorted "12:00:00" ≠ renderClusterView vizUnsorted "12:00:01" := by
  refine ⟨fun v now => rfl, fun v t => rfl, ?_, ?_⟩
  · decide
  · decide

end KRM
